import Mathlib

/-
Verification of the keyword-driven insurance responder (src/app.py).

The embedding below translates the module's data tables and pure helper
functions into Lean.  Python strings are Lean `String`s; `str.lower` is
modelled on the ASCII range (all knowledge-base keys and plan names are
ASCII); `re.search(key.replace(" ", "|"), q)` is modelled as "some
space-separated fragment of the key occurs as a substring of q", which is
exactly what the alternation pattern means for the metacharacter-free keys
in the table; `"\n".join` is `joinNL`; the currency f-string (whose prefix
ends with the narrow no-break space U+202F, not an ASCII space) is the
decimal digits of the amount grouped in threes by commas from the right
with that fixed prefix.  The `,.0f` format spec converts through a float,
so the digits are exact only for amounts below 2^53 and the format raises
beyond the float range; the embedding renders exact digits and the
theorems about all amounts are stated under the 2^53 bound.
-/

set_option maxRecDepth 20000

/-- ASCII lower-casing of one character, as `str.lower` acts on ASCII. -/
def lowerChar (c : Char) : Char :=
  if 'A' ≤ c ∧ c ≤ 'Z' then Char.ofNat (c.toNat + 32) else c

/-- ASCII lower-casing of a string (`question.lower()` in the source). -/
def lower (s : String) : String := ⟨s.data.map lowerChar⟩

/-- ASCII upper-casing of one character, used by the `str.title` model. -/
def upperChar (c : Char) : Char :=
  if 'a' ≤ c ∧ c ≤ 'z' then Char.ofNat (c.toNat - 32) else c

/-- Does the first list occur at the head of the second list? -/
def leadsWith : List Char → List Char → Bool
  | [], _ => true
  | _ :: _, [] => false
  | c :: cs, d :: ds => c == d && leadsWith cs ds

/-- Does the first list occur contiguously anywhere in the second list? -/
def occursIn (needle : List Char) : List Char → Bool
  | [] => leadsWith needle []
  | d :: ds => leadsWith needle (d :: ds) || occursIn needle ds

/-- Python's substring test `needle in hay`. -/
def strHas (hay needle : String) : Bool := occursIn needle.data hay.data

/-- Helper for `splitWords`: accumulate the current word (reversed). -/
def splitWordsAux : List Char → List Char → List String
  | [], acc => [⟨acc.reverse⟩]
  | c :: rest, acc =>
      if c = ' ' then ⟨acc.reverse⟩ :: splitWordsAux rest []
      else splitWordsAux rest (c :: acc)

/-- Python's `s.split(" ")`. -/
def splitWords (s : String) : List String := splitWordsAux s.data []

/-- Python's `"\n".join(lines)`. -/
def joinNL : List String → String
  | [] => ""
  | [s] => s
  | s :: t :: rest => s ++ "\n" ++ joinNL (t :: rest)

/-- Helper for `titleCase`: the Bool records whether the previous
character was alphabetic. -/
def titleAux : List Char → Bool → List Char
  | [], _ => []
  | c :: rest, prevAlpha =>
      (if prevAlpha then lowerChar c else upperChar c) :: titleAux rest c.isAlpha

/-- Python's `s.title()` on ASCII text. -/
def titleCase (s : String) : String := ⟨titleAux s.data false⟩

/-- Python's `definition.split(".")[0] + "."`: the text up to and
including the first period (the whole text plus "." if there is none). -/
def firstSentence (s : String) : String :=
  (⟨s.data.takeWhile (fun c => c != '.')⟩ : String) ++ "."

/-- Insert a comma after every three characters of a reversed digit
list: the work-horse of the `{amount:,.0f}` thousands grouping. -/
def groupRev : List Char → List Char
  | a :: b :: c :: d :: rest => a :: b :: c :: ',' :: groupRev (d :: rest)
  | l => l

/-- Thousands separators: commas every three digits from the right. -/
def insertCommas (s : String) : String := ⟨(groupRev s.data.reverse).reverse⟩

-- ---------------------------------------------------------------------------
-- Data definitions (COVERAGE_DEFINITIONS and POLICY_PLANS from src/app.py)
-- ---------------------------------------------------------------------------

def ctplText : String :=
  "**Compulsory Third Party Liability (CTPL)** is the only form of car insurance required by law in the Philippines.  It pays for injuries or death you cause to someone outside your vehicle – for example a pedestrian, passenger in another car or a non‑family member.  The LTO requires CTPL before a vehicle can be registered and a standard policy typically covers up to PHP\u202F100,000【388055955070738†L96-L110】."

def ownDamageText : String :=
  "**Own Damage** coverage pays to repair or replace your vehicle if it is damaged or stolen.  It is optional but strongly recommended because CTPL only covers third parties and will not pay for your own car【88305912757905†L115-L136】.  Policies often have a deductible you must pay before the insurer covers the remaining cost."

def actsOfGodText : String :=
  "**Acts of God (Acts of Nature)** coverage protects you from losses caused by natural calamities such as typhoons, floods or earthquakes【88305912757905†L138-L150】.  Some policies cover volcanic eruptions and landslides as well【388055955070738†L188-L204】.  Acts of God coverage is usually an optional add‑on and costs vary by vehicle value."

def personalAccidentText : String :=
  "**Personal Accident** coverage pays for medical expenses, disability benefits and accidental death benefits for the driver and passengers of the insured vehicle【88305912757905†L153-L161】.  Some policies specify a fixed benefit per passenger while others provide a lump sum."

def maliciousMischiefText : String :=
  "**Acts of Malicious Mischief** coverage pays to repair your car if it is intentionally damaged by someone else.  Examples include vandalism, keying the paint or damage caused by riots or civil unrest【88305912757905†L163-L172】."

def roadsideAssistanceText : String :=
  "**Roadside Assistance** covers services such as towing, fuel delivery and jump‑starting your vehicle when it breaks down.  Some policies also include emergency medical evacuation【88305912757905†L174-L181】."

def lossOfUseText : String :=
  "**Loss of Use** coverage reimburses you for the cost of renting a replacement vehicle while your insured car is being repaired due to a covered accident or theft【88305912757905†L184-L191】.  Policies specify daily and maximum limits."

/-- `COVERAGE_DEFINITIONS`, an insertion-ordered dict in the source. -/
def COVERAGE_DEFINITIONS : List (String × String) :=
  [("ctpl", ctplText),
   ("own damage", ownDamageText),
   ("acts of god", actsOfGodText),
   ("personal accident", personalAccidentText),
   ("malicious mischief", maliciousMischiefText),
   ("roadside assistance", roadsideAssistanceText),
   ("loss of use", lossOfUseText)]

/-- One entry of `POLICY_PLANS`. -/
structure Plan where
  premium : Nat
  description : String
  coverage : List String
  limits : List (String × Nat)
deriving DecidableEq

def basicPlan : Plan :=
  { premium := 1800
    description := "Our entry‑level plan provides legally required CTPL protection and offers affordable peace of mind for budget‑conscious drivers."
    coverage := ["ctpl"]
    limits := [("ctpl", 100000)] }

def standardPlan : Plan :=
  { premium := 7500
    description := "A balanced plan that adds own damage and Acts of God coverage on top of CTPL.  Ideal for drivers who want broader protection without paying for all the bells and whistles."
    coverage := ["ctpl", "own damage", "acts of god"]
    limits := [("ctpl", 100000), ("own damage", 400000), ("acts of god", 300000)] }

def premiumPlan : Plan :=
  { premium := 14000
    description := "Our most comprehensive plan which includes all available coverage types.  Perfect for new or high‑value vehicles and for owners who want maximum peace of mind."
    coverage := ["ctpl", "own damage", "acts of god", "personal accident",
                 "malicious mischief", "roadside assistance", "loss of use"]
    limits := [("ctpl", 100000), ("own damage", 800000), ("acts of god", 600000),
               ("personal accident", 200000), ("malicious mischief", 300000),
               ("roadside assistance", 0), ("loss of use", 2500)] }

/-- `POLICY_PLANS`, an insertion-ordered dict in the source. -/
def POLICY_PLANS : List (String × Plan) :=
  [("Basic", basicPlan), ("Standard", standardPlan), ("Premium", premiumPlan)]

-- ---------------------------------------------------------------------------
-- Helper functions (format_currency, plan_info, answer_question)
-- ---------------------------------------------------------------------------

/-- `format_currency`: the source f-string, whose literal part is
"PHP" followed by U+202F (narrow no-break space), applied to a machine
integer (exact below 2^53, where the float conversion is lossless). -/
def format_currency (amount : Nat) : String :=
  "PHP\u202F" ++ insertCommas (Nat.repr amount)

/-- The display title of a coverage key:
`c.title() if c != "ctpl" else "CTPL"`. -/
def covTitle (c : String) : String := if c = "ctpl" then "CTPL" else titleCase c

/-- The body of the limits loop of `plan_info`. -/
def limitLine (cov : String) (limit : Nat) : String :=
  if cov = "roadside assistance" then "Roadside assistance: service included"
  else if cov = "loss of use" then
    "Loss of use: reimbursed up to " ++ format_currency limit ++ " per day"
  else covTitle cov ++ ": " ++ format_currency limit ++ " limit"

/-- `plan_info`.  The source indexes the global `POLICY_PLANS` with the
name; here the plan record found there is passed alongside the name. -/
def plan_info (plan_name : String) (plan : Plan) : String :=
  joinNL ["**" ++ plan_name ++ " Plan**",
          plan.description,
          "",
          "Included coverage: " ++ String.intercalate ", " (plan.coverage.map covTitle) ++ ".",
          "Annual premium: " ++ format_currency plan.premium ++ ".",
          "Coverage limits: " ++ String.intercalate "; " (plan.limits.map (fun kv => limitLine kv.1 kv.2)) ++ "."]

/-- `re.search(cov_key.replace(" ", "|"), q)`: the keys contain no regex
metacharacters, so the alternation matches iff some space-separated
fragment of the key is a substring of `q`. -/
def fragMatch (key q : String) : Bool := (splitWords key).any (fun w => strHas q w)

/-- The first coverage-definition loop of `answer_question`. -/
def findCoverage (q : String) : Option String :=
  COVERAGE_DEFINITIONS.findSome? (fun kv => if fragMatch kv.1 q then some kv.2 else none)

/-- The pricing response built in `answer_question`. -/
def pricingResponse : String :=
  joinNL ("Here are the annual premiums for our available plans:" ::
    POLICY_PLANS.map (fun kv => "- **" ++ kv.1 ++ " Plan**: " ++ format_currency kv.2.premium) ++
    ["\nAsk about a specific plan to see what it covers."])

/-- The coverage-overview response built in `answer_question`. -/
def overviewResponse : String :=
  joinNL ("We offer several types of coverage.  Here\x27s a quick overview:" ::
    COVERAGE_DEFINITIONS.map (fun kv => "- " ++ firstSentence kv.2) ++
    ["\nYou can ask about any of these coverage types for more information or inquire about a specific plan."])

/-- The fallback response of `answer_question`. -/
def fallbackResponse : String :=
  "I\x27m sorry, I don\x27t have an answer to that yet.  You can ask me about car insurance coverage, premiums or one of our plans (Basic, Standard or Premium)."

/-- `answer_question`: the ordered first-match-wins cascade. -/
def answer_question (question : String) : String :=
  let q := lower question
  match findCoverage q with
  | some definition => definition
  | none =>
    match POLICY_PLANS.find? (fun kv => strHas q (lower kv.1)) with
    | some kv => plan_info kv.1 kv.2
    | none =>
      if ["price", "cost", "premium", "rates"].any (fun w => strHas q w) then
        pricingResponse
      else if ["coverage", "covered", "benefits"].any (fun w => strHas q w) then
        overviewResponse
      else
        fallbackResponse

-- ---------------------------------------------------------------------------
-- Generic lemmas about the list combinators used by the responder
-- ---------------------------------------------------------------------------

lemma findSome?_exists_of_eq_some {α : Type} {β : Type} {l : List α} {f : α → Option β}
    {b : β} (h : l.findSome? f = some b) : ∃ a ∈ l, f a = some b := by
  induction l with
  | nil => simp [List.findSome?] at h
  | cons a t ih =>
    rw [List.findSome?_cons] at h
    cases hfa : f a with
    | some c =>
      refine ⟨a, by simp, ?_⟩
      simp [hfa] at h
      simp [hfa, h]
    | none =>
      simp [hfa] at h
      obtain ⟨x, hx, hfx⟩ := ih h
      exact ⟨x, by simp [hx], hfx⟩

lemma findSome?_at_index {α : Type} {β : Type} (l : List (α × β)) (p : α → Bool) :
    ∀ (i : Nat) (h : i < l.length), p (l.get ⟨i, h⟩).1 = true →
    (l.take i).all (fun kv => !(p kv.1)) = true →
    l.findSome? (fun kv => if p kv.1 then some kv.2 else none) = some (l.get ⟨i, h⟩).2 := by
  induction l with
  | nil => intro i h; exact absurd h (by simp)
  | cons a t ih =>
    intro i h hp hall
    cases i with
    | zero =>
      rw [List.findSome?_cons]
      simp only [List.get] at hp ⊢
      simp [hp]
    | succ j =>
      rw [List.findSome?_cons]
      have ha : p a.1 = false := by
        rw [List.take_succ_cons, List.all_cons] at hall
        have := (Bool.and_eq_true _ _).mp hall
        simpa using this.1
      have hj : j < t.length := by simpa using h
      have hrec := ih j hj (by simpa using hp) (by
        rw [List.take_succ_cons, List.all_cons] at hall
        exact ((Bool.and_eq_true _ _).mp hall).2)
      simp [ha, hrec]

-- ---------------------------------------------------------------------------
-- Claims
-- ---------------------------------------------------------------------------

/-- C1: the responder evaluates its match categories in the fixed order
coverage-definition, plan-name, pricing, overview, fallback, so whenever any
coverage-definition entry matches the normalized question the matching
definition is returned even if the question also contains a plan name; in
particular "does the Basic plan cover acts of god" returns the Acts of God
definition and not the Basic plan description. -/
theorem claim_C1 :
    (∀ (q d : String), findCoverage (lower q) = some d → answer_question q = d) ∧
    answer_question "does the Basic plan cover acts of god" = actsOfGodText ∧
    strHas (lower "does the Basic plan cover acts of god") "basic" = true ∧
    answer_question "does the Basic plan cover acts of god" ≠ plan_info "Basic" basicPlan := by
  refine ⟨fun q d h => by simp only [answer_question, h], by decide, by decide, by decide⟩

/-- C1 witness: a concrete question matching the first coverage entry. -/
theorem claim_C1_witness : answer_question "is ctpl mandatory" = ctplText :=
  claim_C1.1 "is ctpl mandatory" ctplText (by decide)

/-- C2: the responder is total and never returns the empty string; the empty
question falls through every category to the fallback response. -/
theorem claim_C2 :
    (∀ q : String, (answer_question q == "") = false) ∧
    answer_question "" = fallbackResponse := by
  constructor
  · intro q
    simp only [answer_question]
    cases hc : findCoverage (lower q) with
    | some d =>
      simp only [hc]
      obtain ⟨kv, hkv, hfk⟩ := findSome?_exists_of_eq_some hc
      have hd : d = kv.2 := by
        by_cases hm : fragMatch kv.1 (lower q) = true
        · simp [hm] at hfk; exact hfk.symm
        · simp [hm] at hfk
      have hall : ∀ kv ∈ COVERAGE_DEFINITIONS, ((kv.2 : String) == "") = false := by decide
      exact hd ▸ hall kv hkv
    | none =>
      simp only [hc]
      cases hp : POLICY_PLANS.find? (fun kv => strHas (lower q) (lower kv.1)) with
      | some kv =>
        simp only [hp]
        have hall : ∀ kv ∈ POLICY_PLANS, (plan_info kv.1 kv.2 == "") = false := by decide
        exact hall kv (List.mem_of_find?_eq_some hp)
      | none =>
        simp only [hp]
        split
        · decide
        · split
          · decide
          · decide
  · decide

/-- C3: coverage-definition matching is fragment alternation over table
order: if entry i of COVERAGE_DEFINITIONS matches the lower-cased question
through some space-separated fragment of its key and no earlier entry does,
the answer is entry i's definition text; and the key "acts of god" matches
exactly when the text contains "acts" or "of" or "god" as a substring. -/
theorem claim_C3 :
    (∀ (q : String) (i : Nat) (h : i < COVERAGE_DEFINITIONS.length),
       fragMatch (COVERAGE_DEFINITIONS.get ⟨i, h⟩).1 (lower q) = true →
       (COVERAGE_DEFINITIONS.take i).all (fun kv => !(fragMatch kv.1 (lower q))) = true →
       answer_question q = (COVERAGE_DEFINITIONS.get ⟨i, h⟩).2) ∧
    (∀ q : String,
       fragMatch "acts of god" q = (strHas q "acts" || (strHas q "of" || strHas q "god"))) := by
  constructor
  · intro q i h hp hall
    have hfind := findSome?_at_index COVERAGE_DEFINITIONS
      (fun k => fragMatch k (lower q)) i h hp hall
    have hc : findCoverage (lower q) = some (COVERAGE_DEFINITIONS.get ⟨i, h⟩).2 := hfind
    simp only [answer_question, hc]
  · intro q
    have hs : splitWords "acts of god" = ["acts", "of", "god"] := by decide
    simp [fragMatch, hs, List.any_cons, List.any_nil]

/-- C3 witness: "of" matches no entry before the "acts of god" entry and
matches that entry, so its definition is returned. -/
theorem claim_C3_witness : answer_question "of" =
    (COVERAGE_DEFINITIONS.get ⟨2, by decide⟩).2 :=
  claim_C3.1 "of" 2 (by decide) (by decide) (by decide)

/-- C6 (amended): the answer to "tell me about the Standard plan" is the
rendered Standard plan description: it contains "Standard Plan", the
formatted premium "PHP\u202F7,500" (the currency prefix ends with the
narrow no-break space U+202F, not an ASCII space) and the coverage names
"CTPL", "Own Damage" and "Acts Of God", but not "Personal Accident". -/
theorem claim_C6 :
    answer_question "tell me about the Standard plan" = plan_info "Standard" standardPlan ∧
    strHas (plan_info "Standard" standardPlan) "Standard Plan" = true ∧
    strHas (plan_info "Standard" standardPlan) "PHP\u202F7,500" = true ∧
    strHas (plan_info "Standard" standardPlan) "CTPL" = true ∧
    strHas (plan_info "Standard" standardPlan) "Own Damage" = true ∧
    strHas (plan_info "Standard" standardPlan) "Acts Of God" = true ∧
    strHas (plan_info "Standard" standardPlan) "Personal Accident" = false := by
  refine ⟨by decide, by decide, by decide, by decide, by decide, by decide, by decide⟩

/-- C6 counterexample: the rendered Standard plan description does not
contain the claim's ASCII-space string "PHP 7,500"; the source separates
"PHP" from the amount with the narrow no-break space U+202F. -/
theorem claim_C6_counterexample :
    strHas (plan_info "Standard" standardPlan) "PHP 7,500" = false ∧
    strHas (plan_info "Standard" standardPlan) "PHP\u202F7,500" = true := by
  refine ⟨by decide, by decide⟩

/-- C7 (amended): the answer to "what are your rates" is the pricing
response: a header, exactly the three plan lines in table order with
their formatted premiums (whose prefix ends with the narrow no-break
space U+202F, not an ASCII space), and the trailing hint line. -/
theorem claim_C7 :
    answer_question "what are your rates" = pricingResponse ∧
    pricingResponse =
      "Here are the annual premiums for our available plans:\n- **Basic Plan**: PHP\u202F1,800\n- **Standard Plan**: PHP\u202F7,500\n- **Premium Plan**: PHP\u202F14,000\n\nAsk about a specific plan to see what it covers." := by
  refine ⟨by decide, by decide⟩

/-- C7 counterexample: the pricing answer does not contain the claim's
ASCII-space line fragment "PHP 1,800"; the amounts are rendered with the
narrow no-break space U+202F after "PHP". -/
theorem claim_C7_counterexample :
    strHas (answer_question "what are your rates") "PHP 1,800" = false ∧
    strHas (answer_question "what are your rates") "PHP\u202F1,800" = true := by
  refine ⟨by decide, by decide⟩

/-- C9: the knowledge-base invariant: every coverage key of every plan is a
key of COVERAGE_DEFINITIONS, every key of a plan's limits mapping appears in
its coverage list, and in this reference data every coverage key also has a
limits entry. -/
theorem claim_C9 :
    ∀ kv ∈ POLICY_PLANS,
      (∀ k ∈ kv.2.coverage, k ∈ COVERAGE_DEFINITIONS.map Prod.fst) ∧
      (∀ k ∈ kv.2.limits.map Prod.fst, k ∈ kv.2.coverage) ∧
      (∀ k ∈ kv.2.coverage, k ∈ kv.2.limits.map Prod.fst) := by
  decide

/-- C9 witness: the Standard plan's "own damage" key resolves in the
coverage-definition table. -/
theorem claim_C9_witness : "own damage" ∈ COVERAGE_DEFINITIONS.map Prod.fst :=
  (claim_C9 ("Standard", standardPlan) (by decide)).1 "own damage" (by decide)

/-- Decomposition of `firstSentence`: when the text contains a period, the
rendered summary is exactly the text up to and including the first one. -/
lemma dotSplit (s : String) (h : '.' ∈ s.data) :
    ∃ pre rest : List Char,
      s.data = pre ++ '.' :: rest ∧ '.' ∉ pre ∧ (firstSentence s).data = pre ++ ['.'] := by
  have hnil : s.data.dropWhile (fun c => c != '.') ≠ [] := by
    intro hn
    have := List.dropWhile_eq_nil_iff.mp hn '.' h
    simp at this
  have hhead : (s.data.dropWhile (fun c => c != '.')).head hnil = '.' := by
    have := List.head_dropWhile_not (fun c => c != '.') s.data hnil
    simpa using this
  refine ⟨s.data.takeWhile (fun c => c != '.'),
          (s.data.dropWhile (fun c => c != '.')).tail, ?_, ?_, ?_⟩
  · have hdecomp : s.data.dropWhile (fun c => c != '.') =
        '.' :: (s.data.dropWhile (fun c => c != '.')).tail := by
      have h1 := List.head_cons_tail (s.data.dropWhile (fun c => c != '.')) hnil
      rw [hhead] at h1
      exact h1.symm
    conv_lhs => rw [← List.takeWhile_append_dropWhile (p := fun c => c != '.') (l := s.data),
                    hdecomp]
  · intro hmem
    have := List.mem_takeWhile_imp hmem
    simp at this
  · simp [firstSentence, String.data_append]

/-- C4 (amended): the claimed input "what coverage do you offer" never
reaches the overview branch (the fragment "of" of "acts of god" occurs in
"offer"); a question that does reach it, such as "coverage", returns the
overview: the header, one bullet per coverage definition in table order,
each the definition text truncated up to and including its first ".",
and the trailing hint line. -/
theorem claim_C4 :
    answer_question "coverage" = overviewResponse ∧
    overviewResponse = joinNL
      ("We offer several types of coverage.  Here\x27s a quick overview:" ::
        COVERAGE_DEFINITIONS.map (fun kv => "- " ++ firstSentence kv.2) ++
        ["\nYou can ask about any of these coverage types for more information or inquire about a specific plan."]) ∧
    (∀ kv ∈ COVERAGE_DEFINITIONS, ∃ pre rest : List Char,
       (kv.2 : String).data = pre ++ '.' :: rest ∧ '.' ∉ pre ∧
       (firstSentence kv.2).data = pre ++ ['.']) := by
  refine ⟨?_, rfl, ?_⟩
  · have h1 : findCoverage (lower "coverage") = none := by decide
    have h2 : POLICY_PLANS.find? (fun kv => strHas (lower "coverage") (lower kv.1)) = none := by
      decide
    have h3 : (["price", "cost", "premium", "rates"].any
        (fun w => strHas (lower "coverage") w)) = false := by decide
    have h4 : (["coverage", "covered", "benefits"].any
        (fun w => strHas (lower "coverage") w)) = true := by decide
    simp [answer_question, h1, h2, h3, h4]
  · intro kv hkv
    apply dotSplit
    fin_cases hkv <;> decide

/-- C4 counterexample: on the claim's input the answer is the Acts of God
definition, not the coverage overview. -/
theorem claim_C4_counterexample :
    answer_question "what coverage do you offer" = actsOfGodText ∧
    actsOfGodText ≠ overviewResponse := by
  refine ⟨by decide, by decide⟩

/-- C4 witness: the first coverage definition decomposes around its first
period as the theorem states. -/
theorem claim_C4_witness :
    ∃ pre rest : List Char,
      (ctplText : String).data = pre ++ '.' :: rest ∧ '.' ∉ pre ∧
      (firstSentence ctplText).data = pre ++ ['.'] :=
  claim_C4.2.2 ("ctpl", ctplText) (by decide)

/-- Unfolding of the six-line join used by the plan renderer. -/
lemma joinNL_six (a b c d e f : String) :
    joinNL [a, b, c, d, e, f] =
      (a ++ "\n" ++ b ++ "\n" ++ c ++ "\n" ++ d ++ "\n" ++ e ++ "\n") ++ f := by
  simp [joinNL, String.append_assoc]

/-- C5 (amended): the service-included and per-day limit clauses use the
fixed sentence-case literals "Roadside assistance: service included" and
"Loss of use: reimbursed up to <amount> per day" (not the title-cased
key); only the remaining case renders "<Title>: <amount> limit" with the
key title-cased (CTPL all-caps); the rendered plan description ends with
the clauses joined by "; " and terminated by ".". -/
theorem claim_C5 :
    (∀ (cov : String) (limit : Nat), cov = "roadside assistance" →
       limitLine cov limit = "Roadside assistance: service included") ∧
    (∀ (cov : String) (limit : Nat), cov = "loss of use" →
       limitLine cov limit =
         "Loss of use: reimbursed up to " ++ format_currency limit ++ " per day") ∧
    (∀ (cov : String) (limit : Nat), cov ≠ "roadside assistance" → cov ≠ "loss of use" →
       limitLine cov limit = covTitle cov ++ ": " ++ format_currency limit ++ " limit") ∧
    (∀ (plan_name : String) (plan : Plan), ∃ pre : String,
       plan_info plan_name plan = pre ++
         ("Coverage limits: " ++
          String.intercalate "; " (plan.limits.map (fun kv => limitLine kv.1 kv.2)) ++ ".")) := by
  refine ⟨?_, ?_, ?_, ?_⟩
  · intro cov limit h
    simp [limitLine, h]
  · intro cov limit h
    subst h
    simp [limitLine]
  · intro cov limit h1 h2
    simp only [limitLine]
    rw [if_neg h1, if_neg h2]
  · intro plan_name plan
    exact ⟨"**" ++ plan_name ++ " Plan**" ++ "\n" ++ plan.description ++ "\n" ++ "" ++ "\n" ++
      ("Included coverage: " ++ String.intercalate ", " (plan.coverage.map covTitle) ++ ".") ++
      "\n" ++ ("Annual premium: " ++ format_currency plan.premium ++ ".") ++ "\n",
      joinNL_six _ _ _ _ _ _⟩

/-- C5 counterexample: the title-cased keys are "Roadside Assistance" and
"Loss Of Use", but the special clauses are rendered with the sentence-case
literals, so the claim's "<Title>: ..." rendering is false of the code for
both special cases. -/
theorem claim_C5_counterexample :
    covTitle "roadside assistance" = "Roadside Assistance" ∧
    limitLine "roadside assistance" 0 = "Roadside assistance: service included" ∧
    limitLine "roadside assistance" 0 ≠
      covTitle "roadside assistance" ++ ": service included" ∧
    covTitle "loss of use" = "Loss Of Use" ∧
    limitLine "loss of use" 2500 ≠
      covTitle "loss of use" ++ ": reimbursed up to " ++ format_currency 2500 ++ " per day" := by
  refine ⟨by decide, by decide, by decide, by decide, by decide⟩

/-- C5 witness: the loss-of-use clause of the Premium plan. -/
theorem claim_C5_witness :
    limitLine "loss of use" 2500 =
      "Loss of use: reimbursed up to " ++ format_currency 2500 ++ " per day" :=
  claim_C5.2.1 "loss of use" 2500 rfl

/-- C10 (amended): when the lower-cased question contains "premium",
matches no coverage fragment and contains neither "basic" nor "standard",
the answer is the rendered Premium plan description; and a question whose
lower-cased form contains "premium" never receives the pricing response,
because the plan-name check precedes the pricing-keyword check. -/
theorem claim_C10 :
    (∀ q : String, strHas (lower q) "premium" = true →
       findCoverage (lower q) = none →
       strHas (lower q) "basic" = false →
       strHas (lower q) "standard" = false →
       answer_question q = plan_info "Premium" premiumPlan) ∧
    (∀ q : String, strHas (lower q) "premium" = true →
       answer_question q ≠ pricingResponse) := by
  have hlb : lower "Basic" = "basic" := by decide
  have hls : lower "Standard" = "standard" := by decide
  have hlp : lower "Premium" = "premium" := by decide
  constructor
  · intro q hprem hc hb hs
    have hfind : POLICY_PLANS.find? (fun kv => strHas (lower q) (lower kv.1)) =
        some ("Premium", premiumPlan) := by
      simp only [POLICY_PLANS, List.find?_cons, hlb, hls, hlp, hb, hs, hprem]
    simp only [answer_question, hc, hfind]
  · intro q hprem
    simp only [answer_question]
    cases hc : findCoverage (lower q) with
    | some d =>
      simp only [hc]
      obtain ⟨kv, hkv, hfk⟩ := findSome?_exists_of_eq_some hc
      have hd : d = kv.2 := by
        by_cases hm : fragMatch kv.1 (lower q) = true
        · simp [hm] at hfk; exact hfk.symm
        · simp [hm] at hfk
      have hall : ∀ kv ∈ COVERAGE_DEFINITIONS, (kv.2 : String) ≠ pricingResponse := by decide
      exact hd ▸ hall kv hkv
    | none =>
      simp only [hc]
      cases hp : POLICY_PLANS.find? (fun kv => strHas (lower q) (lower kv.1)) with
      | some kv =>
        simp only [hp]
        have hall : ∀ kv ∈ POLICY_PLANS, plan_info kv.1 kv.2 ≠ pricingResponse := by decide
        exact hall kv (List.mem_of_find?_eq_some hp)
      | none =>
        exfalso
        have hnone := List.find?_eq_none.mp hp ("Premium", premiumPlan) (by decide)
        rw [show (("Premium", premiumPlan) : String × Plan).1 = "Premium" from rfl] at hnone
        simp only [hlp] at hnone
        exact hnone hprem

/-- C10 witness: a question containing "premium" and no other trigger. -/
theorem claim_C10_witness : answer_question "premium please" = plan_info "Premium" premiumPlan :=
  claim_C10.1 "premium please" (by decide) (by decide) (by decide) (by decide)

/-- C10 counterexample: "the basic premium" contains "premium" and matches
no coverage fragment, yet the answer is the Basic plan description, because
the plan names are tried in table order. -/
theorem claim_C10_counterexample :
    strHas (lower "the basic premium") "premium" = true ∧
    findCoverage (lower "the basic premium") = none ∧
    answer_question "the basic premium" = plan_info "Basic" basicPlan ∧
    plan_info "Basic" basicPlan ≠ plan_info "Premium" premiumPlan := by
  refine ⟨by decide, by decide, by decide, by decide⟩

/-- Every character of the base-10 digit accumulator is a decimal digit
(provided the seed characters are). -/
lemma toDigitsCore_digits :
    ∀ (fuel n : Nat) (ds : List Char), (∀ c ∈ ds, c.isDigit = true) →
      ∀ c ∈ Nat.toDigitsCore 10 fuel n ds, c.isDigit = true := by
  intro fuel
  induction fuel with
  | zero =>
    intro n ds hds c hc
    exact hds c hc
  | succ f ih =>
    intro n ds hds c hc
    have hdig : (Nat.digitChar (n % 10)).isDigit = true := by
      have hm : n % 10 < 10 := Nat.mod_lt _ (by omega)
      revert hm
      have : ∀ m : Nat, m < 10 → (Nat.digitChar m).isDigit = true := by decide
      exact this (n % 10)
    have hcons : ∀ x ∈ Nat.digitChar (n % 10) :: ds, Char.isDigit x = true := by
      intro x hx
      rcases List.mem_cons.mp hx with h | h
      · rw [h]; exact hdig
      · exact hds x h
    by_cases h0 : n / 10 = 0
    · simp only [Nat.toDigitsCore, h0, if_pos] at hc
      exact hcons c (by simpa using hc)
    · simp only [Nat.toDigitsCore, h0, if_neg, ite_false] at hc
      exact ih (n / 10) (Nat.digitChar (n % 10) :: ds) hcons c hc

/-- Every character of the decimal representation of a natural number is a
decimal digit. -/
lemma repr_digits (n : Nat) : ∀ c ∈ (Nat.repr n).data, c.isDigit = true := by
  intro c hc
  have h : (Nat.repr n).data = Nat.toDigitsCore 10 (n + 1) n [] := rfl
  rw [h] at hc
  exact toDigitsCore_digits (n + 1) n [] (by simp) c hc

/-- Removing the commas inserted by `groupRev` recovers the input. -/
lemma groupRev_filter_aux : ∀ (N : Nat) (m : List Char), m.length ≤ N →
    (groupRev m).filter (fun c => c != ',') = m.filter (fun c => c != ',') := by
  intro N
  induction N with
  | zero =>
    intro m hm
    rcases m with _ | ⟨a, t⟩
    · rfl
    · simp at hm
  | succ N ih =>
    intro m hm
    rcases m with _ | ⟨a, _ | ⟨b, _ | ⟨c, _ | ⟨d, rest⟩⟩⟩⟩
    · rfl
    · rfl
    · rfl
    · rfl
    · have h4 : (d :: rest).length ≤ N := by simp at hm ⊢; omega
      have hrec := ih (d :: rest) h4
      show (a :: b :: c :: ',' :: groupRev (d :: rest)).filter (fun c => c != ',') =
        (a :: b :: c :: d :: rest).filter (fun c => c != ',')
      simp [List.filter_cons, hrec]

/-- Every character of the grouped output is an input character or a comma. -/
lemma mem_groupRev_aux : ∀ (N : Nat) (m : List Char), m.length ≤ N →
    ∀ c ∈ groupRev m, c ∈ m ∨ c = ',' := by
  intro N
  induction N with
  | zero =>
    intro m hm c hc
    rcases m with _ | ⟨a, t⟩
    · simp [groupRev] at hc
    · simp at hm
  | succ N ih =>
    intro m hm x hx
    rcases m with _ | ⟨a, _ | ⟨b, _ | ⟨c, _ | ⟨d, rest⟩⟩⟩⟩
    · simp [groupRev] at hx
    · exact Or.inl hx
    · exact Or.inl hx
    · exact Or.inl hx
    · have h4 : (d :: rest).length ≤ N := by simp at hm ⊢; omega
      have hx' : x ∈ (a :: b :: c :: ',' :: groupRev (d :: rest)) := hx
      rcases List.mem_cons.mp hx' with h | h
      · exact Or.inl (by simp [h])
      rcases List.mem_cons.mp h with h | h
      · exact Or.inl (by simp [h])
      rcases List.mem_cons.mp h with h | h
      · exact Or.inl (by simp [h])
      rcases List.mem_cons.mp h with h | h
      · exact Or.inr h
      · rcases ih (d :: rest) h4 x h with h' | h'
        · exact Or.inl (List.mem_cons_of_mem _ (List.mem_cons_of_mem _
            (List.mem_cons_of_mem _ h')))
        · exact Or.inr h'

/-- In the grouped output of a comma-free list, commas sit exactly at the
positions congruent to 3 modulo 4 (counting from the grouping end). -/
lemma groupRev_comma_iff_aux : ∀ (N : Nat) (m : List Char), m.length ≤ N → ',' ∉ m →
    ∀ (i : Nat) (h : i < (groupRev m).length),
      ((groupRev m).get ⟨i, h⟩ = ',' ↔ i % 4 = 3) := by
  intro N
  induction N with
  | zero =>
    intro m hm hmem i h
    rcases m with _ | ⟨a, t⟩
    · simp [groupRev] at h
    · simp at hm
  | succ N ih =>
    intro m hm hmem i h
    rcases m with _ | ⟨a, _ | ⟨b, _ | ⟨c, _ | ⟨d, rest⟩⟩⟩⟩
    · simp [groupRev] at h
    · have ha : a ≠ ',' := fun e => hmem (by simp [e])
      have hi : i = 0 := by
        have h1 : i < 1 := h
        omega
      subst hi
      simp [List.get, ha]
    · have ha : a ≠ ',' := fun e => hmem (by simp [e])
      have hb : b ≠ ',' := fun e => hmem (by simp [e])
      have hi : i < 2 := h
      interval_cases i
      · simp [List.get, ha]
      · simp [List.get, hb]
    · have ha : a ≠ ',' := fun e => hmem (by simp [e])
      have hb : b ≠ ',' := fun e => hmem (by simp [e])
      have hc : c ≠ ',' := fun e => hmem (by simp [e])
      have hi : i < 3 := h
      interval_cases i
      · simp [List.get, ha]
      · simp [List.get, hb]
      · simp [List.get, hc]
    · have ha : a ≠ ',' := fun e => hmem (by simp [e])
      have hb : b ≠ ',' := fun e => hmem (by simp [e])
      have hc : c ≠ ',' := fun e => hmem (by simp [e])
      have hmem4 : ',' ∉ d :: rest := fun e =>
        hmem (List.mem_cons_of_mem _ (List.mem_cons_of_mem _ (List.mem_cons_of_mem _ e)))
      have hm4 : (d :: rest).length ≤ N := by simp at hm ⊢; omega
      have hlen : (groupRev (a :: b :: c :: d :: rest)).length =
          (groupRev (d :: rest)).length + 4 := by
        show (a :: b :: c :: ',' :: groupRev (d :: rest)).length = _
        simp
      rcases i with _ | _ | _ | _ | k
      · simp [List.get, ha]
      · simp [List.get, hb]
      · simp [List.get, hc]
      · simp [List.get]
      · have hk : k < (groupRev (d :: rest)).length := by
          rw [hlen] at h; omega
        have hrec := ih (d :: rest) hm4 hmem4 k hk
        have hget : (groupRev (a :: b :: c :: d :: rest)).get ⟨k + 4, h⟩ =
            (groupRev (d :: rest)).get ⟨k, hk⟩ := by
          show (a :: b :: c :: ',' :: groupRev (d :: rest)).get ⟨k + 4, by
            simpa [hlen] using h⟩ = _
          simp [List.get]
        rw [hget, hrec]
        omega

/-- C8 (amended): for every non-negative integer below 2^53 (the range on
which the source's float conversion in `,.0f` is lossless; above it the
float rounds the digits and beyond the float range the format raises),
`format_currency` renders the fixed prefix "PHP\u202F" (ending in the
narrow no-break space U+202F, not an ASCII space) followed by the decimal
digits of the amount with thousands separators and no other characters
(hence zero decimal places): removing the commas recovers the exact
decimal representation, every output character is a digit or a comma,
and, counting from the right, a comma appears exactly at the positions
congruent to 3 modulo 4; in particular
`format_currency 100000 = "PHP\u202F100,000"` and
`format_currency 0 = "PHP\u202F0"`. -/
theorem claim_C8 :
    (∀ n : Nat, n < 2 ^ 53 →
       format_currency n = "PHP\u202F" ++ insertCommas (Nat.repr n) ∧
       (insertCommas (Nat.repr n)).data.filter (fun c => c != ',') = (Nat.repr n).data ∧
       (∀ c ∈ (insertCommas (Nat.repr n)).data, c.isDigit = true ∨ c = ',') ∧
       (∀ (i : Nat) (h : i < ((insertCommas (Nat.repr n)).data.reverse).length),
          (((insertCommas (Nat.repr n)).data.reverse).get ⟨i, h⟩ = ',' ↔ i % 4 = 3))) ∧
    format_currency 100000 = "PHP\u202F100,000" ∧
    format_currency 0 = "PHP\u202F0" := by
  have hmain : ∀ n : Nat,
      format_currency n = "PHP\u202F" ++ insertCommas (Nat.repr n) ∧
      (insertCommas (Nat.repr n)).data.filter (fun c => c != ',') = (Nat.repr n).data ∧
      (∀ c ∈ (insertCommas (Nat.repr n)).data, c.isDigit = true ∨ c = ',') ∧
      (∀ (i : Nat) (h : i < ((insertCommas (Nat.repr n)).data.reverse).length),
         (((insertCommas (Nat.repr n)).data.reverse).get ⟨i, h⟩ = ',' ↔ i % 4 = 3)) := by
    intro n
    have hnc : ',' ∉ (Nat.repr n).data := by
      intro hc
      have := repr_digits n ',' hc
      simp at this
    have hdata : (insertCommas (Nat.repr n)).data =
        (groupRev (Nat.repr n).data.reverse).reverse := rfl
    refine ⟨rfl, ?_, ?_, ?_⟩
    · rw [hdata, List.filter_reverse, groupRev_filter_aux ((Nat.repr n).data.reverse.length)
        ((Nat.repr n).data.reverse) le_rfl, List.filter_reverse, List.reverse_reverse]
      exact List.filter_eq_self.mpr (fun a ha => by
        have hd := repr_digits n a ha
        by_contra hne
        have ha' : a = ',' := by
          revert hne
          simp [bne]
        rw [ha'] at hd
        simp at hd)
    · intro c hc
      rw [hdata, List.mem_reverse] at hc
      rcases mem_groupRev_aux ((Nat.repr n).data.reverse.length)
        ((Nat.repr n).data.reverse) le_rfl c hc with h | h
      · exact Or.inl (repr_digits n c (List.mem_reverse.mp h))
      · exact Or.inr h
    · have hrev : (insertCommas (Nat.repr n)).data.reverse =
          groupRev (Nat.repr n).data.reverse := by
        rw [hdata, List.reverse_reverse]
      intro i h
      have hi : i < (groupRev (Nat.repr n).data.reverse).length := by
        rw [← hrev]; exact h
      have hget := List.get_of_eq hrev ⟨i, h⟩
      rw [hget]
      exact groupRev_comma_iff_aux ((Nat.repr n).data.reverse.length)
        ((Nat.repr n).data.reverse) le_rfl (by simpa using hnc) i hi
  exact ⟨fun n _ => hmain n, by decide, by decide⟩

/-- C8 witness: 1234567 is in the float-lossless range and its grouped
digit block, read from the right, has a comma at position 3. -/
theorem claim_C8_witness :
    (((insertCommas (Nat.repr 1234567)).data.reverse).get ⟨3, by decide⟩ = ',') ↔ 3 % 4 = 3 :=
  (claim_C8.1 1234567 (by decide)).2.2.2 3 (by decide)

/-- C8 counterexample: both of the claim's ASCII-space example equalities
are false of the code; the prefix ends with the narrow no-break space
U+202F. -/
theorem claim_C8_counterexample :
    format_currency 100000 ≠ "PHP 100,000" ∧
    format_currency 0 ≠ "PHP 0" ∧
    format_currency 100000 = "PHP\u202F100,000" := by
  refine ⟨by decide, by decide, by decide⟩
